import Mathlib

/-!
Shallow embedding of the BrittBot-Quantum-MB trading simulator.

Numeric values (Python/numpy floats, SQLite REALs) are modelled as exact
rationals (`ℚ`); timestamps as integers (`ℤ`).  Fallible storage calls are
modelled with an explicit `dbError : Bool` input standing for whether the
underlying SQLite statement raises, and `Except Unit` results.

Source files embedded:
  - `src/AIMathCalculationScript.py`  (signal engine, `generate_signals`)
  - `src/StockTradingLoopLogic.py`    (`run_stock_engine`)
  - `src/CryptoTradingLoopLogic.py`   (`run_crypto_engine`)
  - `src/SafeDataBaseWrapper.py`      (`insert_price_data`, `insert_signal`,
    and the `INSERT OR REPLACE` semantics of the `price_data` table with
    its `UNIQUE(asset, timestamp)` constraint)
-/

namespace BrittBot

/-! ### Data model -/

/-- One row fetched from the `price_data` table for a fixed asset
(`timestamp INTEGER`, `price REAL`). -/
structure PricePoint where
  timestamp : ℤ
  price : ℚ
deriving DecidableEq

/-- A full row of the `price_data` table (`asset`, `timestamp`, `price`),
subject to `UNIQUE(asset, timestamp)` per `initialize_database`. -/
structure PriceRow where
  asset : String
  timestamp : ℤ
  price : ℚ
deriving DecidableEq

/-- A row of the `signals` table (`sma_20`/`sma_50` are nullable). -/
structure SignalDBRow where
  asset : String
  timestamp : ℤ
  signal_value : ℚ
  sma_20 : Option ℚ
  sma_50 : Option ℚ
deriving DecidableEq

/-- Trade actions: the string values used by the engines
(`action` column of `trade_history`). -/
inductive TradeActionKind where
  | BUY
  | SELL
  | HOLD
deriving DecidableEq

/-- A row of the `trade_history` table. -/
structure TradeRow where
  asset : String
  timestamp : ℤ
  action : TradeActionKind
  quantity : ℚ
  price : ℚ
deriving DecidableEq

/-- The three relations held by the store (`trading_data.db`). -/
structure Store where
  price_data : List PriceRow
  signals : List SignalDBRow
  trade_history : List TradeRow
deriving DecidableEq

/-! ### Signal engine (`AIMathCalculationScript.py`) -/

/-- `SMA_SHORT_PERIOD = 20`. -/
def SMA_SHORT_PERIOD : ℕ := 20

/-- `SMA_LONG_PERIOD = 50`. -/
def SMA_LONG_PERIOD : ℕ := 50

/-- `max_diff = 0.01` (line 52 of `AIMathCalculationScript.py`). -/
def max_diff : ℚ := 1 / 100

/-- Insert a point into a timestamp-ascending list, keeping it ascending
(one step of the sort performed by `df.sort_values(by='timestamp')`). -/
def sortedInsert (p : PricePoint) : List PricePoint → List PricePoint
  | [] => [p]
  | q :: rest =>
      if p.timestamp ≤ q.timestamp then p :: q :: rest else q :: sortedInsert p rest

/-- `df.sort_values(by='timestamp', ascending=True)`: sort the fetched rows
ascending by timestamp (insertion sort; ties in any order, the engine's
arithmetic never depends on tie order). -/
def sortByTimestamp (l : List PricePoint) : List PricePoint :=
  l.foldr sortedInsert []

/-- `series.rolling(window=w).mean()` evaluated at the last row: the mean of
the trailing `w` values, `none` (NaN) when fewer than `w` values exist. -/
def smaLast (w : ℕ) (prices : List ℚ) : Option ℚ :=
  if prices.length < w then none
  else some ((prices.drop (prices.length - w)).sum / (w : ℚ))

/-- `np.clip x lo hi`. -/
def np_clip (x lo hi : ℚ) : ℚ := min (max x lo) hi

/-- Python's `round` to the nearest integer: round half to even. -/
def roundHalfEven (x : ℚ) : ℤ :=
  if x - (⌊x⌋ : ℚ) < 1 / 2 then ⌊x⌋
  else if 1 / 2 < x - (⌊x⌋ : ℚ) then ⌊x⌋ + 1
  else if ⌊x⌋ % 2 = 0 then ⌊x⌋ else ⌊x⌋ + 1

/-- Python's `round(x, 4)`: round to 4 decimal places. -/
def round4 (x : ℚ) : ℚ := (roundHalfEven (x * 10000) : ℚ) / 10000

/-- The `if pd.isna(...)`/`else` block of `generate_signals` (lines 40-59):
the raw (pre-rounding) signal value from the latest SMAs and latest price. -/
def rawSignalValue (sma_20 sma_50 : Option ℚ) (latestPrice : ℚ) : ℚ :=
  match sma_20, sma_50 with
  | some s20, some s50 =>
      let diff_pct := (s20 - s50) / latestPrice
      let normalized_diff := np_clip (diff_pct / max_diff) (-1) 1
      (normalized_diff + 1) / 2
  | _, _ => 1 / 2

/-- The value triple `(signal_value, sma_20, sma_50)` that `generate_signals`
passes to `insert_signal` (asset and wall-clock timestamp are supplied by the
caller's environment and are irrelevant to the arithmetic). -/
structure SignalRow where
  signal_value : ℚ
  sma_20 : Option ℚ
  sma_50 : Option ℚ
deriving DecidableEq

/-- The row that `generate_signals` stores for one asset, as a function of the
fetched price data (`fetch_latest_data(asset, limit=SMA_LONG_PERIOD + 5)`);
`none` means the run is skipped and no row is written. -/
def generate_signals (data : List PricePoint) : Option SignalRow :=
  if data.length < SMA_LONG_PERIOD then none
  else
    let prices := (sortByTimestamp data).map PricePoint.price
    let sma_20 := smaLast SMA_SHORT_PERIOD prices
    let sma_50 := smaLast SMA_LONG_PERIOD prices
    let signal_value := rawSignalValue sma_20 sma_50 (prices.getLast?.getD 0)
    some ⟨round4 signal_value, sma_20.map round4, sma_50.map round4⟩

/-! ### Decision engines (`StockTradingLoopLogic.py`, `CryptoTradingLoopLogic.py`) -/

/-- The per-asset-class constants of a decision engine. -/
structure EngineConfig where
  buy_threshold : ℚ
  sell_threshold : ℚ
  trade_quantity : ℚ
deriving DecidableEq

/-- `StockTradingLoopLogic.py`: `BUY_THRESHOLD = 0.75`, `SELL_THRESHOLD = 0.25`,
`TRADE_QUANTITY = 10`. -/
def stockConfig : EngineConfig := ⟨3 / 4, 1 / 4, 10⟩

/-- `CryptoTradingLoopLogic.py`: `BUY_THRESHOLD = 0.80`, `SELL_THRESHOLD = 0.20`,
`TRADE_QUANTITY = 0.01`. -/
def cryptoConfig : EngineConfig := ⟨4 / 5, 1 / 5, 1 / 100⟩

/-- Outcome of the engines' signal lookup: `Except.error ()` models the
`except` branch (a storage error), `Except.ok none` a query that returns no
row, `Except.ok (some v)` a fetched `signal_value`. -/
abbrev SignalFetch := Except Unit (Option ℚ)

/-- The `latest_signal` each engine ends up using (lines 27-38 of the stock
engine, 26-37 of the crypto engine): the fetched value if any, `0.5` when no
signal row exists, and `0.5` when the lookup raises (caught locally). -/
def effectiveSignal (fetched : SignalFetch) : ℚ :=
  match fetched with
  | Except.ok (some v) => v
  | Except.ok none => 1 / 2
  | Except.error _ => 1 / 2

/-- The trading decision block shared verbatim by both engines:
`BUY` if `signal >= BUY_THRESHOLD`, `elif signal <= SELL_THRESHOLD` then
`SELL`, else `HOLD`. -/
def decideAction (cfg : EngineConfig) (s : ℚ) : TradeActionKind :=
  if cfg.buy_threshold ≤ s then TradeActionKind.BUY
  else if s ≤ cfg.sell_threshold then TradeActionKind.SELL
  else TradeActionKind.HOLD

/-- One engine run: its inputs are the latest price (`none` when
`fetch_latest_data(asset, limit=1)` is empty) and the signal-lookup outcome;
its output is the list of `trade_history` rows it writes. -/
def runEngine (cfg : EngineConfig) (asset : String) (now : ℤ)
    (latestPrice : Option ℚ) (fetchedSignal : SignalFetch) : List TradeRow :=
  match latestPrice with
  | none => []
  | some current_price =>
      let latest_signal := effectiveSignal fetchedSignal
      let action := decideAction cfg latest_signal
      if action = TradeActionKind.BUY ∨ action = TradeActionKind.SELL then
        [⟨asset, now, action, cfg.trade_quantity, current_price⟩]
      else []

/-- `run_stock_engine` for `STOCK_ASSET = 'AAPL'`. -/
def run_stock_engine (now : ℤ) (latestPrice : Option ℚ)
    (fetchedSignal : SignalFetch) : List TradeRow :=
  runEngine stockConfig "AAPL" now latestPrice fetchedSignal

/-- `run_crypto_engine` for `CRYPTO_ASSET = 'BTC'`. -/
def run_crypto_engine (now : ℤ) (latestPrice : Option ℚ)
    (fetchedSignal : SignalFetch) : List TradeRow :=
  runEngine cryptoConfig "BTC" now latestPrice fetchedSignal

/-! ### Store wrapper (`SafeDataBaseWrapper.py`) -/

/-- `INSERT OR REPLACE INTO price_data ...` against the
`UNIQUE(asset, timestamp)` constraint: any existing row with the same key is
replaced by the new row. -/
def insertOrReplacePrice (tbl : List PriceRow) (r : PriceRow) : List PriceRow :=
  r :: tbl.filter (fun q => decide (¬(q.asset = r.asset ∧ q.timestamp = r.timestamp)))

/-- Number of `price_data` rows carrying a given `(asset, timestamp)` key. -/
def keyCount (tbl : List PriceRow) (a : String) (t : ℤ) : ℕ :=
  (tbl.filter (fun q => decide (q.asset = a ∧ q.timestamp = t))).length

/-- The uniqueness invariant enforced by `UNIQUE(asset, timestamp)`. -/
def atMostOnePerKey (tbl : List PriceRow) : Prop :=
  ∀ a t, keyCount tbl a t ≤ 1

/-- `price_data` tables reachable from the freshly initialized (empty) table
by `insert_price_data` calls. -/
inductive PriceTableReachable : List PriceRow → Prop where
  | init : PriceTableReachable []
  | step : ∀ (tbl : List PriceRow) (r : PriceRow),
      PriceTableReachable tbl → PriceTableReachable (insertOrReplacePrice tbl r)

/-- `insert_price_data(asset, timestamp, price)`: the whole body is wrapped in
`try/except Exception`, which prints and swallows any error; `dbError` says
whether the underlying statement raises (whereupon the transaction is rolled
back, leaving the store unchanged). -/
def insert_price_data (st : Store) (dbError : Bool) (r : PriceRow) : Except Unit Store :=
  match (if dbError then Except.error ()
         else Except.ok { st with price_data := insertOrReplacePrice st.price_data r } :
         Except Unit Store) with
  | Except.ok st2 => Except.ok st2
  | Except.error _ => Except.ok st

/-- `insert_signal(...)`: plain `INSERT` (append) into the `signals` log, body
wrapped in the same `try/except Exception` that swallows any error. -/
def insert_signal (st : Store) (dbError : Bool) (row : SignalDBRow) : Except Unit Store :=
  match (if dbError then Except.error ()
         else Except.ok { st with signals := st.signals ++ [row] } :
         Except Unit Store) with
  | Except.ok st2 => Except.ok st2
  | Except.error _ => Except.ok st

/-! ### Concrete inputs used by closed theorems -/

/-- Attach ascending integer timestamps to a list of prices. -/
def mkSeries : ℤ → List ℚ → List PricePoint
  | _, [] => []
  | t, p :: rest => ⟨t, p⟩ :: mkSeries (t + 1) rest

/-- The spec's end-to-end scenario series: 49 points at 100, then one at 110. -/
def scenarioSeries : List PricePoint :=
  mkSeries 0 (List.replicate 49 (100 : ℚ) ++ [110])

/-- A series exposing 4-decimal rounding: 49 points at 8, then one at 9
(exact signal value 2/3, stored as 0.6667). -/
def roundingSeries : List PricePoint :=
  mkSeries 0 (List.replicate 49 (8 : ℚ) ++ [9])

/-- The empty store. -/
def store0 : Store := ⟨[], [], []⟩

/-- A sample price row. -/
def pr0 : PriceRow := ⟨"AAPL", 0, 100⟩

/-- A second price row with the same `(asset, timestamp)` key as `pr0`. -/
def pr1 : PriceRow := ⟨"AAPL", 0, 101⟩

/-- A one-row table obtained by inserting `pr0` into the empty table. -/
def tbl0 : List PriceRow := insertOrReplacePrice [] pr0

/-- A sample signal row. -/
def sig0 : SignalDBRow := ⟨"AAPL", 0, 1 / 2, none, none⟩

/-! ### Helper lemmas about the embedding -/

theorem sortedInsert_length (p : PricePoint) (l : List PricePoint) :
    (sortedInsert p l).length = l.length + 1 := by
  induction l with
  | nil => rfl
  | cons q rest ih =>
      rw [sortedInsert]
      split
      · simp
      · simp [ih]

theorem sortByTimestamp_length (l : List PricePoint) :
    (sortByTimestamp l).length = l.length := by
  induction l with
  | nil => rfl
  | cons p rest ih =>
      show (sortedInsert p (sortByTimestamp rest)).length = rest.length + 1
      rw [sortedInsert_length, ih]

theorem sortByTimestamp_of_chain (l : List PricePoint)
    (h : List.Chain' (fun p q => p.timestamp ≤ q.timestamp) l) :
    sortByTimestamp l = l := by
  induction l with
  | nil => rfl
  | cons p rest ih =>
      show sortedInsert p (sortByTimestamp rest) = p :: rest
      rw [ih h.tail]
      cases rest with
      | nil => rfl
      | cons q rest2 =>
          have hpq : p.timestamp ≤ q.timestamp := (List.chain'_cons.mp h).1
          rw [sortedInsert, if_pos hpq]

theorem mkSeries_map_price (t : ℤ) (ps : List ℚ) :
    (mkSeries t ps).map PricePoint.price = ps := by
  induction ps generalizing t with
  | nil => rfl
  | cons p rest ih => simp [mkSeries, ih]

theorem mkSeries_length (t : ℤ) (ps : List ℚ) :
    (mkSeries t ps).length = ps.length := by
  induction ps generalizing t with
  | nil => rfl
  | cons p rest ih => simp [mkSeries, ih]

theorem mkSeries_chain (t : ℤ) (ps : List ℚ) :
    List.Chain' (fun p q => p.timestamp ≤ q.timestamp) (mkSeries t ps) := by
  induction ps generalizing t with
  | nil => exact List.chain'_nil
  | cons p rest ih =>
      cases rest with
      | nil => exact List.chain'_singleton _
      | cons p2 rest2 =>
          refine List.chain'_cons.mpr ⟨?_, ih (t + 1)⟩
          show t ≤ t + 1
          omega

theorem smaLast_replicate_concat (w n : ℕ) (a b : ℚ) (hw : 0 < w) (hwn : w ≤ n + 1) :
    smaLast w (List.replicate n a ++ [b]) = some ((((w - 1 : ℕ) : ℚ) * a + b) / (w : ℚ)) := by
  have hlen : (List.replicate n a ++ [b]).length = n + 1 := by simp
  rw [smaLast, hlen, if_neg (by omega)]
  have hdrop : (List.replicate n a ++ [b]).drop (n + 1 - w)
      = List.replicate (w - 1) a ++ [b] := by
    rw [List.drop_append_of_le_length (by simp [hwn]; omega), List.drop_replicate]
    congr 2
    omega
  rw [hdrop, List.sum_append, List.sum_replicate, List.sum_cons, List.sum_nil,
    nsmul_eq_mul]
  norm_num

theorem round4_sevenElevenths : round4 (7 / 11) = 1591 / 2500 := by
  have hfl : (⌊(7 / 11 : ℚ) * 10000⌋ : ℤ) = 6363 := by norm_num
  rw [round4, roundHalfEven, hfl, if_neg (by norm_num), if_pos (by norm_num)]
  norm_num

theorem round4_twoThirds : round4 (2 / 3) = 6667 / 10000 := by
  have hfl : (⌊(2 / 3 : ℚ) * 10000⌋ : ℤ) = 6666 := by norm_num
  rw [round4, roundHalfEven, hfl, if_neg (by norm_num), if_pos (by norm_num)]
  norm_num

theorem round4_zero : round4 0 = 0 := by
  have hfl : (⌊(0 : ℚ) * 10000⌋ : ℤ) = 0 := by norm_num
  rw [round4, roundHalfEven, hfl, if_pos (by norm_num)]
  norm_num

theorem round4_one : round4 1 = 1 := by
  have hfl : (⌊(1 : ℚ) * 10000⌋ : ℤ) = 10000 := by norm_num
  rw [round4, roundHalfEven, hfl, if_pos (by norm_num)]
  norm_num

theorem round4_half : round4 (1 / 2) = 1 / 2 := by
  have hfl : (⌊(1 / 2 : ℚ) * 10000⌋ : ℤ) = 5000 := by norm_num
  rw [round4, roundHalfEven, hfl, if_pos (by norm_num)]
  norm_num

theorem scenario_sorted_prices :
    (sortByTimestamp scenarioSeries).map PricePoint.price
      = List.replicate 49 (100 : ℚ) ++ [110] := by
  rw [scenarioSeries, sortByTimestamp_of_chain _ (mkSeries_chain _ _), mkSeries_map_price]

theorem scenario_sma20 :
    smaLast SMA_SHORT_PERIOD ((sortByTimestamp scenarioSeries).map PricePoint.price)
      = some (201 / 2) := by
  rw [scenario_sorted_prices, SMA_SHORT_PERIOD,
    smaLast_replicate_concat 20 49 _ _ (by norm_num) (by norm_num)]
  norm_num

theorem scenario_sma50 :
    smaLast SMA_LONG_PERIOD ((sortByTimestamp scenarioSeries).map PricePoint.price)
      = some (501 / 5) := by
  rw [scenario_sorted_prices, SMA_LONG_PERIOD,
    smaLast_replicate_concat 50 49 _ _ (by norm_num) (by norm_num)]
  norm_num

theorem scenario_latest :
    ((sortByTimestamp scenarioSeries).map PricePoint.price).getLast?.getD 0 = 110 := by
  rw [scenario_sorted_prices, List.getLast?_concat]
  rfl

theorem scenario_length : scenarioSeries.length = 50 := by
  rw [scenarioSeries, mkSeries_length]
  simp

theorem rawSignalValue_scenario :
    rawSignalValue (some (201 / 2)) (some (501 / 5)) 110 = 7 / 11 := by
  rw [rawSignalValue]
  have hx : (((201 / 2 : ℚ) - 501 / 5) / 110) / max_diff = 3 / 11 := by
    rw [max_diff]; norm_num
  simp only [hx, np_clip]
  rw [max_eq_left (by norm_num), min_eq_left (by norm_num)]
  norm_num

theorem generate_signals_scenario :
    generate_signals scenarioSeries
      = some ⟨1591 / 2500, some (201 / 2), some (501 / 5)⟩ := by
  rw [generate_signals, if_neg (by rw [scenario_length, SMA_LONG_PERIOD]; omega)]
  simp only [scenario_sma20, scenario_sma50, scenario_latest, rawSignalValue_scenario,
    round4_sevenElevenths, Option.map_some]
  have h20 : round4 (201 / 2) = 201 / 2 := by
    have hfl : (⌊(201 / 2 : ℚ) * 10000⌋ : ℤ) = 1005000 := by norm_num
    rw [round4, roundHalfEven, hfl, if_pos (by norm_num)]
    norm_num
  have h50 : round4 (501 / 5) = 501 / 5 := by
    have hfl : (⌊(501 / 5 : ℚ) * 10000⌋ : ℤ) = 1002000 := by norm_num
    rw [round4, roundHalfEven, hfl, if_pos (by norm_num)]
    norm_num
  simp only [Option.map_some']
  rw [h20, h50]

theorem rounding_sorted_prices :
    (sortByTimestamp roundingSeries).map PricePoint.price
      = List.replicate 49 (8 : ℚ) ++ [9] := by
  rw [roundingSeries, sortByTimestamp_of_chain _ (mkSeries_chain _ _), mkSeries_map_price]

theorem rounding_sma20 :
    smaLast SMA_SHORT_PERIOD ((sortByTimestamp roundingSeries).map PricePoint.price)
      = some (161 / 20) := by
  rw [rounding_sorted_prices, SMA_SHORT_PERIOD,
    smaLast_replicate_concat 20 49 _ _ (by norm_num) (by norm_num)]
  norm_num

theorem rounding_sma50 :
    smaLast SMA_LONG_PERIOD ((sortByTimestamp roundingSeries).map PricePoint.price)
      = some (401 / 50) := by
  rw [rounding_sorted_prices, SMA_LONG_PERIOD,
    smaLast_replicate_concat 50 49 _ _ (by norm_num) (by norm_num)]
  norm_num

theorem rounding_latest :
    ((sortByTimestamp roundingSeries).map PricePoint.price).getLast?.getD 0 = 9 := by
  rw [rounding_sorted_prices, List.getLast?_concat]
  rfl

theorem rounding_length : roundingSeries.length = 50 := by
  rw [roundingSeries, mkSeries_length]
  simp

theorem rawSignalValue_rounding :
    rawSignalValue (some (161 / 20)) (some (401 / 50)) 9 = 2 / 3 := by
  rw [rawSignalValue]
  have hx : (((161 / 20 : ℚ) - 401 / 50) / 9) / max_diff = 1 / 3 := by
    rw [max_diff]; norm_num
  simp only [hx, np_clip]
  rw [max_eq_left (by norm_num), min_eq_left (by norm_num)]
  norm_num

theorem generate_signals_rounding :
    generate_signals roundingSeries
      = some ⟨6667 / 10000, some (161 / 20), some (401 / 50)⟩ := by
  rw [generate_signals, if_neg (by rw [rounding_length, SMA_LONG_PERIOD]; omega)]
  simp only [rounding_sma20, rounding_sma50, rounding_latest, rawSignalValue_rounding,
    round4_twoThirds, Option.map_some']
  have h20 : round4 (161 / 20) = 161 / 20 := by
    have hfl : (⌊(161 / 20 : ℚ) * 10000⌋ : ℤ) = 80500 := by norm_num
    rw [round4, roundHalfEven, hfl, if_pos (by norm_num)]
    norm_num
  have h50 : round4 (401 / 50) = 401 / 50 := by
    have hfl : (⌊(401 / 50 : ℚ) * 10000⌋ : ℤ) = 80200 := by norm_num
    rw [round4, roundHalfEven, hfl, if_pos (by norm_num)]
    norm_num
  rw [h20, h50]

/-! ### Bound lemmas for the [0,1] invariant -/

theorem np_clip_le (x lo hi : ℚ) : np_clip x lo hi ≤ hi := min_le_right _ _

theorem le_np_clip (x lo hi : ℚ) (h : lo ≤ hi) : lo ≤ np_clip x lo hi :=
  le_min (le_max_right _ _) h

theorem roundHalfEven_nonneg (x : ℚ) (hx : 0 ≤ x) : 0 ≤ roundHalfEven x := by
  have hf : 0 ≤ ⌊x⌋ := Int.floor_nonneg.mpr hx
  rw [roundHalfEven]
  split
  · exact hf
  · split
    · omega
    · split
      · exact hf
      · omega

theorem roundHalfEven_le_of_le (x : ℚ) (n : ℤ) (hx : x ≤ (n : ℚ)) :
    roundHalfEven x ≤ n := by
  have hf : ⌊x⌋ ≤ n := by
    have := Int.floor_le_floor hx
    simpa using this
  have hfx : (⌊x⌋ : ℚ) ≤ x := Int.floor_le x
  rw [roundHalfEven]
  split
  · exact hf
  · rename_i h1
    split
    · rename_i h2
      have hlt : (⌊x⌋ : ℚ) < (n : ℚ) := by linarith
      have : ⌊x⌋ < n := by exact_mod_cast hlt
      omega
    · rename_i h2
      split
      · exact hf
      · have heq : x - (⌊x⌋ : ℚ) = 1 / 2 := le_antisymm (not_lt.mp h2) (not_lt.mp h1)
        have hlt : (⌊x⌋ : ℚ) < (n : ℚ) := by linarith
        have : ⌊x⌋ < n := by exact_mod_cast hlt
        omega

theorem round4_nonneg (x : ℚ) (hx : 0 ≤ x) : 0 ≤ round4 x := by
  have h := roundHalfEven_nonneg (x * 10000) (by positivity)
  have hc : (0 : ℚ) ≤ (roundHalfEven (x * 10000) : ℚ) := by exact_mod_cast h
  rw [round4]
  positivity

theorem round4_le_one (x : ℚ) (hx : x ≤ 1) : round4 x ≤ 1 := by
  have h := roundHalfEven_le_of_le (x * 10000) 10000 (by push_cast; linarith)
  have hc : (roundHalfEven (x * 10000) : ℚ) ≤ 10000 := by exact_mod_cast h
  rw [round4]
  linarith

theorem rawSignalValue_nonneg (o20 o50 : Option ℚ) (p : ℚ) :
    0 ≤ rawSignalValue o20 o50 p := by
  cases o20 with
  | none => cases o50 <;> norm_num [rawSignalValue]
  | some s20 =>
      cases o50 with
      | none => norm_num [rawSignalValue]
      | some s50 =>
          have h := le_np_clip (((s20 - s50) / p) / max_diff) (-1) 1 (by norm_num)
          simp only [rawSignalValue]
          linarith

theorem rawSignalValue_le_one (o20 o50 : Option ℚ) (p : ℚ) :
    rawSignalValue o20 o50 p ≤ 1 := by
  cases o20 with
  | none => cases o50 <;> norm_num [rawSignalValue]
  | some s20 =>
      cases o50 with
      | none => norm_num [rawSignalValue]
      | some s50 =>
          have h := np_clip_le (((s20 - s50) / p) / max_diff) (-1) 1
          simp only [rawSignalValue]
          linarith

/-! ### Helper lemmas for the store -/

theorem keyCount_cons (q : PriceRow) (tbl : List PriceRow) (a : String) (t : ℤ) :
    keyCount (q :: tbl) a t
      = (if q.asset = a ∧ q.timestamp = t then 1 else 0) + keyCount tbl a t := by
  by_cases hq : q.asset = a ∧ q.timestamp = t
  · rw [keyCount, keyCount, List.filter_cons, if_pos (by simp [hq.1, hq.2]), if_pos hq,
      List.length_cons]
    omega
  · rw [keyCount, keyCount, List.filter_cons, if_neg (by simp [hq]), if_neg hq]
    omega

theorem keyCount_remove_self (tbl : List PriceRow) (a : String) (t : ℤ) :
    keyCount (tbl.filter fun q => decide (¬(q.asset = a ∧ q.timestamp = t))) a t = 0 := by
  induction tbl with
  | nil => rfl
  | cons q rest ih =>
      rw [List.filter_cons]
      by_cases hq : q.asset = a ∧ q.timestamp = t
      · rw [if_neg (by simp [hq.1, hq.2])]
        exact ih
      · rw [if_pos (by simp [hq]), keyCount_cons, if_neg hq, ih]

theorem keyCount_remove_ne (tbl : List PriceRow) (a2 : String) (t2 : ℤ) (a : String) (t : ℤ)
    (h : ¬(a = a2 ∧ t = t2)) :
    keyCount (tbl.filter fun q => decide (¬(q.asset = a2 ∧ q.timestamp = t2))) a t
      = keyCount tbl a t := by
  induction tbl with
  | nil => rfl
  | cons q rest ih =>
      rw [List.filter_cons]
      by_cases hq2 : q.asset = a2 ∧ q.timestamp = t2
      · have hq : ¬(q.asset = a ∧ q.timestamp = t) := by
          rintro ⟨ha, ht⟩
          exact h ⟨ha.symm.trans hq2.1, ht.symm.trans hq2.2⟩
        rw [if_neg (by simp [hq2.1, hq2.2]), keyCount_cons, if_neg hq, ih]
        omega
      · rw [if_pos (by simp [hq2]), keyCount_cons, keyCount_cons, ih]

theorem length_filter_not_key (tbl : List PriceRow) (a : String) (t : ℤ) :
    (tbl.filter fun q => decide (¬(q.asset = a ∧ q.timestamp = t))).length + keyCount tbl a t
      = tbl.length := by
  induction tbl with
  | nil => rfl
  | cons q rest ih =>
      rw [List.filter_cons, keyCount_cons, List.length_cons]
      by_cases hq : q.asset = a ∧ q.timestamp = t
      · rw [if_neg (by simp [hq.1, hq.2]), if_pos hq]
        omega
      · rw [if_pos (by simp [hq]), if_neg hq, List.length_cons]
        omega

theorem keyCount_insertOrReplace_self (tbl : List PriceRow) (r : PriceRow) :
    keyCount (insertOrReplacePrice tbl r) r.asset r.timestamp = 1 := by
  rw [insertOrReplacePrice, keyCount_cons, if_pos ⟨rfl, rfl⟩, keyCount_remove_self]

theorem keyCount_insertOrReplace_ne (tbl : List PriceRow) (r : PriceRow)
    (a : String) (t : ℤ) (h : ¬(a = r.asset ∧ t = r.timestamp)) :
    keyCount (insertOrReplacePrice tbl r) a t = keyCount tbl a t := by
  have hr : ¬(r.asset = a ∧ r.timestamp = t) := by
    rintro ⟨h1, h2⟩
    exact h ⟨h1.symm, h2.symm⟩
  rw [insertOrReplacePrice, keyCount_cons, if_neg hr,
    keyCount_remove_ne tbl r.asset r.timestamp a t h]
  omega

theorem atMostOnePerKey_insertOrReplace (tbl : List PriceRow) (r : PriceRow)
    (h : atMostOnePerKey tbl) : atMostOnePerKey (insertOrReplacePrice tbl r) := by
  intro a t
  by_cases hk : a = r.asset ∧ t = r.timestamp
  · rw [hk.1, hk.2, keyCount_insertOrReplace_self]
  · rw [keyCount_insertOrReplace_ne tbl r a t hk]
    exact h a t

theorem reachable_atMostOnePerKey (tbl : List PriceRow) (h : PriceTableReachable tbl) :
    atMostOnePerKey tbl := by
  induction h with
  | init => intro a t; exact Nat.zero_le 1
  | step tbl2 r hprev ih => exact atMostOnePerKey_insertOrReplace tbl2 r ih

theorem mem_insertOrReplace_key_price (tbl : List PriceRow) (r q : PriceRow)
    (hq : q ∈ insertOrReplacePrice tbl r)
    (hkey : q.asset = r.asset ∧ q.timestamp = r.timestamp) : q.price = r.price := by
  rw [insertOrReplacePrice, List.mem_cons] at hq
  rcases hq with rfl | hq
  · rfl
  · have h2 := (List.mem_filter.mp hq).2
    rw [decide_eq_true_eq] at h2
    exact absurd hkey h2

/-! ### Helper lemmas for the decision engines -/

theorem decideAction_eq_buy (cfg : EngineConfig) (s : ℚ) :
    decideAction cfg s = TradeActionKind.BUY ↔ cfg.buy_threshold ≤ s := by
  rw [decideAction]
  split_ifs with h1 h2
  · exact ⟨fun _ => h1, fun _ => rfl⟩
  · exact ⟨fun h => absurd h (by decide), fun h => absurd h h1⟩
  · exact ⟨fun h => absurd h (by decide), fun h => absurd h h1⟩

theorem decideAction_eq_sell (cfg : EngineConfig) (s : ℚ) :
    decideAction cfg s = TradeActionKind.SELL
      ↔ (s < cfg.buy_threshold ∧ s ≤ cfg.sell_threshold) := by
  rw [decideAction]
  split_ifs with h1 h2
  · exact ⟨fun h => absurd h (by decide), fun hh => absurd h1 (not_le.mpr hh.1)⟩
  · exact ⟨fun _ => ⟨not_le.mp h1, h2⟩, fun _ => rfl⟩
  · exact ⟨fun h => absurd h (by decide), fun hh => absurd hh.2 h2⟩

theorem decideAction_eq_hold (cfg : EngineConfig) (s : ℚ) :
    decideAction cfg s = TradeActionKind.HOLD
      ↔ (cfg.sell_threshold < s ∧ s < cfg.buy_threshold) := by
  rw [decideAction]
  split_ifs with h1 h2
  · exact ⟨fun h => absurd h (by decide), fun hh => absurd hh.2 (not_lt.mpr h1)⟩
  · exact ⟨fun h => absurd h (by decide), fun hh => absurd h2 (not_le.mpr hh.1)⟩
  · exact ⟨fun _ => ⟨not_le.mp h2, not_le.mp h1⟩, fun _ => rfl⟩

theorem runEngine_some (cfg : EngineConfig) (asset : String) (now : ℤ) (p s : ℚ) :
    runEngine cfg asset now (some p) (Except.ok (some s))
      = if decideAction cfg s = TradeActionKind.HOLD then []
        else [⟨asset, now, decideAction cfg s, cfg.trade_quantity, p⟩] := by
  rw [runEngine]
  cases h : decideAction cfg s <;> simp [effectiveSignal, h]

/-! ### Claim theorems -/

/-- C1, counterexample: for the 50-point series of 49 prices at 8 followed by one at 9,
the SMAs are 161/20 and 401/50, the latest price is 9, the normalization formula
`(clamp(diff_pct / max_diff, -1, 1) + 1) / 2` yields exactly 2/3, but the stored
signal is `round(2/3, 4) = 0.6667 ≠ 2/3`: the stored signal does not equal the raw
formula value. -/
theorem signal_rounding_neq_formula :
    (generate_signals roundingSeries).map SignalRow.signal_value = some (6667 / 10000)
    ∧ smaLast SMA_SHORT_PERIOD ((sortByTimestamp roundingSeries).map PricePoint.price)
        = some (161 / 20)
    ∧ smaLast SMA_LONG_PERIOD ((sortByTimestamp roundingSeries).map PricePoint.price)
        = some (401 / 50)
    ∧ ((sortByTimestamp roundingSeries).map PricePoint.price).getLast?.getD 0 = 9
    ∧ (np_clip ((((161 : ℚ) / 20 - 401 / 50) / 9) / max_diff) (-1) 1 + 1) / 2 = 2 / 3
    ∧ (6667 / 10000 : ℚ) ≠ 2 / 3 := by
  refine ⟨?_, rounding_sma20, rounding_sma50, rounding_latest, ?_, by norm_num⟩
  · rw [generate_signals_rounding]
    rfl
  · have hx : (((161 / 20 : ℚ) - 401 / 50) / 9) / max_diff = 1 / 3 := by
      rw [max_diff]; norm_num
    rw [hx, np_clip, max_eq_left (by norm_num), min_eq_left (by norm_num)]
    norm_num

/-- C1 (amended): for every price series passing the length check whose latest-point
short and long SMAs are defined and whose latest price is `p`, the stored signal is
`round4 ((clamp(((sma_short - sma_long) / p) / max_diff, -1, 1) + 1) / 2)` — the
formula value rounded to 4 decimal places; and the boundary cases hold exactly:
`diff_pct / max_diff ≥ 1` stores 1.0, `≤ -1` stores 0.0, and equal SMAs store
exactly 0.5. -/
theorem signal_formula (data : List PricePoint) (s20 s50 p : ℚ)
    (hlen : SMA_LONG_PERIOD ≤ data.length)
    (h20 : smaLast SMA_SHORT_PERIOD ((sortByTimestamp data).map PricePoint.price)
        = some s20)
    (h50 : smaLast SMA_LONG_PERIOD ((sortByTimestamp data).map PricePoint.price)
        = some s50)
    (hp : ((sortByTimestamp data).map PricePoint.price).getLast?.getD 0 = p) :
    (generate_signals data).map SignalRow.signal_value
      = some (round4 ((np_clip (((s20 - s50) / p) / max_diff) (-1) 1 + 1) / 2))
    ∧ (1 ≤ ((s20 - s50) / p) / max_diff →
        (generate_signals data).map SignalRow.signal_value = some 1)
    ∧ (((s20 - s50) / p) / max_diff ≤ -1 →
        (generate_signals data).map SignalRow.signal_value = some 0)
    ∧ (s20 = s50 →
        (generate_signals data).map SignalRow.signal_value = some (1 / 2)) := by
  have hmain : (generate_signals data).map SignalRow.signal_value
      = some (round4 ((np_clip (((s20 - s50) / p) / max_diff) (-1) 1 + 1) / 2)) := by
    rw [generate_signals, if_neg (by omega)]
    simp only [h20, h50, hp, Option.map_some']
    simp only [rawSignalValue]
  refine ⟨hmain, ?_, ?_, ?_⟩
  · intro ht
    have hcl : np_clip (((s20 - s50) / p) / max_diff) (-1) 1 = 1 := by
      rw [np_clip, max_eq_left (by linarith), min_eq_right ht]
    rw [hmain, hcl, show ((1 : ℚ) + 1) / 2 = 1 by norm_num, round4_one]
  · intro ht
    have hcl : np_clip (((s20 - s50) / p) / max_diff) (-1) 1 = -1 := by
      rw [np_clip, max_eq_right ht, min_eq_left (by norm_num)]
    rw [hmain, hcl, show ((-1 : ℚ) + 1) / 2 = 0 by norm_num, round4_zero]
  · intro heq
    subst heq
    rw [hmain, sub_self, zero_div, zero_div, np_clip, max_eq_left (by norm_num),
      min_eq_left (by norm_num), show ((0 : ℚ) + 1) / 2 = 1 / 2 by norm_num, round4_half]

/-- C1 witness: the amended formula instantiated on the concrete scenario series
(49 points at 100, one at 110), where the SMAs are 201/2 and 501/5 and the latest
price is 110. -/
theorem signal_formula_witness :
    (generate_signals scenarioSeries).map SignalRow.signal_value
      = some (round4 ((np_clip ((((201 : ℚ) / 2 - 501 / 5) / 110) / max_diff) (-1) 1 + 1) / 2)) :=
  (signal_formula scenarioSeries (201 / 2) (501 / 5) 110
    (by simp [scenario_length, SMA_LONG_PERIOD])
    scenario_sma20 scenario_sma50 scenario_latest).1

/-- C2: for every signal value read with a latest price present, the decision is BUY
iff the signal is at least the buy threshold (equity 3/4, crypto 4/5), SELL iff it is
below the buy threshold and at most the sell threshold (equity 1/4, crypto 1/5),
HOLD otherwise (both boundaries inclusive); and the engine writes exactly one trade
row carrying the configured quantity (10 resp. 0.01) and the fetched price on BUY or
SELL, and no row on HOLD. -/
theorem decision_engine_thresholds (s p : ℚ) (now : ℤ) :
    (decideAction stockConfig s = TradeActionKind.BUY ↔ 3 / 4 ≤ s)
    ∧ (decideAction stockConfig s = TradeActionKind.SELL ↔ (s < 3 / 4 ∧ s ≤ 1 / 4))
    ∧ (decideAction stockConfig s = TradeActionKind.HOLD ↔ (1 / 4 < s ∧ s < 3 / 4))
    ∧ (decideAction cryptoConfig s = TradeActionKind.BUY ↔ 4 / 5 ≤ s)
    ∧ (decideAction cryptoConfig s = TradeActionKind.SELL ↔ (s < 4 / 5 ∧ s ≤ 1 / 5))
    ∧ (decideAction cryptoConfig s = TradeActionKind.HOLD ↔ (1 / 5 < s ∧ s < 4 / 5))
    ∧ (run_stock_engine now (some p) (Except.ok (some s))
        = if decideAction stockConfig s = TradeActionKind.HOLD then []
          else [⟨"AAPL", now, decideAction stockConfig s, 10, p⟩])
    ∧ (run_crypto_engine now (some p) (Except.ok (some s))
        = if decideAction cryptoConfig s = TradeActionKind.HOLD then []
          else [⟨"BTC", now, decideAction cryptoConfig s, 1 / 100, p⟩]) :=
  ⟨decideAction_eq_buy stockConfig s, decideAction_eq_sell stockConfig s,
    decideAction_eq_hold stockConfig s, decideAction_eq_buy cryptoConfig s,
    decideAction_eq_sell cryptoConfig s, decideAction_eq_hold cryptoConfig s,
    runEngine_some stockConfig "AAPL" now p s, runEngine_some cryptoConfig "BTC" now p s⟩

/-- C3: every signal row the engine produces carries a signal value in the closed
interval [0, 1], for any finite input price series. -/
theorem signal_value_in_unit_interval (data : List PricePoint) (row : SignalRow)
    (h : generate_signals data = some row) :
    0 ≤ row.signal_value ∧ row.signal_value ≤ 1 := by
  rw [generate_signals] at h
  split at h
  · exact Option.noConfusion h
  · simp only [Option.some.injEq] at h
    subst h
    constructor
    · exact round4_nonneg _ (rawSignalValue_nonneg _ _ _)
    · exact round4_le_one _ (rawSignalValue_le_one _ _ _)

/-- C3 witness: the invariant evaluated on the concrete scenario series. -/
theorem signal_value_in_unit_interval_witness :
    0 ≤ (⟨1591 / 2500, some (201 / 2), some (501 / 5)⟩ : SignalRow).signal_value
    ∧ (⟨1591 / 2500, some (201 / 2), some (501 / 5)⟩ : SignalRow).signal_value ≤ 1 :=
  signal_value_in_unit_interval scenarioSeries _ generate_signals_scenario

/-- C5: when the available price series has fewer than `SMA_LONG_PERIOD = 50`
points, the signal engine skips the run and writes no signal row. -/
theorem insufficient_data_skip (data : List PricePoint)
    (h : data.length < SMA_LONG_PERIOD) : generate_signals data = none := by
  rw [generate_signals, if_pos h]

/-- C5 witness: the skip evaluated on the empty series. -/
theorem insufficient_data_skip_witness : generate_signals [] = none :=
  insufficient_data_skip [] (by decide)

/-- C6: when the signal lookup raises a storage error but a latest price exists, the
engine substitutes the neutral signal 1/2 and completes normally, and its state
change (the written trade rows) is identical to a run that found no prior signal. -/
theorem signal_fetch_error_degrades (now : ℤ) (p : ℚ) :
    effectiveSignal (Except.error ()) = 1 / 2
    ∧ run_stock_engine now (some p) (Except.error ())
        = run_stock_engine now (some p) (Except.ok none)
    ∧ run_crypto_engine now (some p) (Except.error ())
        = run_crypto_engine now (some p) (Except.ok none) :=
  ⟨rfl, rfl, rfl⟩

/-- C7: when no price row exists for the asset, the run writes no trade row at all,
whatever the signal lookup returns. -/
theorem missing_price_no_write (now : ℤ) (fetched : SignalFetch) :
    run_stock_engine now none fetched = [] ∧ run_crypto_engine now none fetched = [] :=
  ⟨rfl, rfl⟩

/-- C4, counterexample: with the underlying statement raising, both store wrappers
return a normal (non-error) result with the store unchanged — the storage error is
caught and swallowed inside the wrapper, contradicting the claim that it propagates
to the caller. -/
theorem insert_error_swallowed :
    insert_price_data store0 true pr0 = Except.ok store0
    ∧ insert_signal store0 true sig0 = Except.ok store0
    ∧ insert_price_data store0 true pr0 ≠ Except.error ()
    ∧ insert_signal store0 true sig0 ≠ Except.error () :=
  ⟨rfl, rfl, fun h => Except.noConfusion h, fun h => Except.noConfusion h⟩

/-- C4 (amended): for every store state, a storage error during a Feeder price
insert or a Signal Engine signal insert is caught and logged inside the store
wrapper and does not propagate: the caller receives a normal return with the store
unchanged (the transaction is rolled back), and no retry happens; on success the
row is written. -/
theorem insert_wrappers_swallow (st : Store) (r : PriceRow) (row : SignalDBRow) :
    insert_price_data st true r = Except.ok st
    ∧ insert_signal st true row = Except.ok st
    ∧ insert_price_data st false r
        = Except.ok { st with price_data := insertOrReplacePrice st.price_data r }
    ∧ insert_signal st false row
        = Except.ok { st with signals := st.signals ++ [row] } :=
  ⟨rfl, rfl, rfl, rfl⟩

/-- C8: inserting a price row whose `(asset, timestamp)` key is already present in a
reachable table replaces the existing row's price instead of adding a duplicate:
afterwards exactly one row carries the key, that row has the new price, the table
length is unchanged, and at most one row per key holds everywhere. -/
theorem price_upsert_replaces (tbl : List PriceRow) (r : PriceRow)
    (hreach : PriceTableReachable tbl)
    (hpresent : 1 ≤ keyCount tbl r.asset r.timestamp) :
    keyCount (insertOrReplacePrice tbl r) r.asset r.timestamp = 1
    ∧ (∀ q ∈ insertOrReplacePrice tbl r,
        q.asset = r.asset ∧ q.timestamp = r.timestamp → q.price = r.price)
    ∧ (insertOrReplacePrice tbl r).length = tbl.length
    ∧ atMostOnePerKey (insertOrReplacePrice tbl r) := by
  have hatmost := reachable_atMostOnePerKey tbl hreach
  have hone : keyCount tbl r.asset r.timestamp = 1 :=
    le_antisymm (hatmost r.asset r.timestamp) hpresent
  refine ⟨keyCount_insertOrReplace_self tbl r,
    fun q hq hk => mem_insertOrReplace_key_price tbl r q hq hk, ?_,
    atMostOnePerKey_insertOrReplace tbl r hatmost⟩
  have hfl := length_filter_not_key tbl r.asset r.timestamp
  rw [insertOrReplacePrice, List.length_cons]
  omega

/-- C8 witness: re-inserting the key `("AAPL", 0)` with a new price into the
one-row table obtained from the empty table. -/
theorem price_upsert_replaces_witness :
    keyCount (insertOrReplacePrice tbl0 pr1) pr1.asset pr1.timestamp = 1
    ∧ (∀ q ∈ insertOrReplacePrice tbl0 pr1,
        q.asset = pr1.asset ∧ q.timestamp = pr1.timestamp → q.price = pr1.price)
    ∧ (insertOrReplacePrice tbl0 pr1).length = tbl0.length
    ∧ atMostOnePerKey (insertOrReplacePrice tbl0 pr1) :=
  price_upsert_replaces tbl0 pr1
    (PriceTableReachable.step [] pr0 PriceTableReachable.init) (by decide)

/-- C9: on the ascending series of 49 points at 100 followed by one at 110, the
engine's SMAs are 201/2 and 501/5, `diff_pct = (201/2 - 501/5) / 110` is positive,
and the stored signal value 1591/2500 is strictly greater than 1/2. -/
theorem scenario_positive_trend_signal :
    (0 : ℚ) < ((201 / 2 : ℚ) - 501 / 5) / 110
    ∧ smaLast SMA_SHORT_PERIOD ((sortByTimestamp scenarioSeries).map PricePoint.price)
        = some (201 / 2)
    ∧ smaLast SMA_LONG_PERIOD ((sortByTimestamp scenarioSeries).map PricePoint.price)
        = some (501 / 5)
    ∧ ((sortByTimestamp scenarioSeries).map PricePoint.price).getLast?.getD 0 = 110
    ∧ (generate_signals scenarioSeries).map SignalRow.signal_value = some (1591 / 2500)
    ∧ (1 / 2 : ℚ) < 1591 / 2500 := by
  refine ⟨by norm_num, scenario_sma20, scenario_sma50, scenario_latest, ?_, by norm_num⟩
  rw [generate_signals_scenario]
  rfl

/-- C10: any fetched series with at least `SMA_LONG_PERIOD = 50` points yields a
written signal row in which both SMA fields are present — the neutral
undefined-SMA branch is unreachable once the coarse length check passes. -/
theorem coarse_check_smas_defined (data : List PricePoint)
    (h : SMA_LONG_PERIOD ≤ data.length) :
    ∃ row, generate_signals data = some row ∧ row.sma_20.isSome ∧ row.sma_50.isSome := by
  have hlen : ((sortByTimestamp data).map PricePoint.price).length = data.length := by
    rw [List.length_map, sortByTimestamp_length]
  have h20 : ¬(((sortByTimestamp data).map PricePoint.price).length < SMA_SHORT_PERIOD) := by
    rw [hlen, SMA_SHORT_PERIOD]
    rw [SMA_LONG_PERIOD] at h
    omega
  have h50 : ¬(((sortByTimestamp data).map PricePoint.price).length < SMA_LONG_PERIOD) := by
    rw [hlen]
    omega
  refine ⟨_, by rw [generate_signals, if_neg (by omega)], ?_, ?_⟩
  · show ((smaLast SMA_SHORT_PERIOD ((sortByTimestamp data).map PricePoint.price)).map
      round4).isSome = true
    rw [smaLast, if_neg h20, Option.map_some', Option.isSome_some]
  · show ((smaLast SMA_LONG_PERIOD ((sortByTimestamp data).map PricePoint.price)).map
      round4).isSome = true
    rw [smaLast, if_neg h50, Option.map_some', Option.isSome_some]

/-- C10 witness: both SMA fields present on the concrete 50-point scenario series. -/
theorem coarse_check_smas_defined_witness :
    ∃ row, generate_signals scenarioSeries = some row
      ∧ row.sma_20.isSome ∧ row.sma_50.isSome :=
  coarse_check_smas_defined scenarioSeries (by simp [scenario_length, SMA_LONG_PERIOD])

end BrittBot
